import Mathlib

/-!
Verification of the GameSocio community application s aggregate-counter and
attachment-lifecycle logic.

The development shallowly embeds the client handlers of
src/components/sections/IdeasHub.tsx (IdeasHub and CollaborationZone),
src/components/Profile.tsx and src/lib/storage.ts, together with the
repository tables and constraints declared in the supabase migrations.
Handlers are pure functions from their inputs and the server state to a
result record holding the new server state, the list of repository and
storage calls the handler issued, and whether the handler finished without
a caught error.  Presentational fields (created_at, profile joins, view
rendering) are omitted; every field a handler reads or writes is kept.
-/

namespace GameSocio

/-- Character-level splitting on a dot, mirroring the JavaScript
String.prototype.split with separator "." : the accumulator holds the
current segment reversed. -/
def splitOnDotAux : List Char → List Char → List (List Char)
  | [], cur => [cur.reverse]
  | c :: cs, cur => if c = '.' then cur.reverse :: splitOnDotAux cs [] else splitOnDotAux cs (c :: cur)

/-- JavaScript fileName.split(".") as a list of strings.  Never empty. -/
def jsSplitDot (s : String) : List String :=
  (splitOnDotAux s.data []).map String.mk

/-- JavaScript fileName.split(".").pop() : the last segment (the whole
name when no dot is present, the empty string after a trailing dot). -/
def jsSplitDotPop (s : String) : String :=
  (jsSplitDot s).getLastD ""

/-- JavaScript toLowerCase, character by character. -/
def jsToLower (s : String) : String :=
  String.mk (s.data.map Char.toLower)

/-- Translation of getFileType from src/lib/storage.ts:
the lowercased last dot-segment of the file name is compared against the
image extensions, then against "pdf", and everything else is "link". -/
def getFileType (fileName : String) : String :=
  let ext := jsToLower (jsSplitDotPop fileName)
  if ext = "jpg" ∨ ext = "jpeg" ∨ ext = "png" ∨ ext = "gif" ∨ ext = "webp" then "image"
  else if ext = "pdf" then "pdf"
  else "link"

/-- Storage key built by uploadPortfolioFile in src/lib/storage.ts:
userId/userId-epochMillis.ext where ext is file.name.split(".").pop()
(not lowercased on this path). -/
def uploadStoragePath (userId : String) (now : Nat) (origName : String) : String :=
  userId ++ "/" ++ (userId ++ "-" ++ toString now ++ "." ++ jsSplitDotPop origName)

/-- Model of the external supabase getPublicUrl resolver: injective in the
bucket-relative key. -/
def publicUrl (path : String) : String :=
  "portfolio_uploads/" ++ path

/-- Row of the game_ideas table as read and written by IdeasHub
(presentational columns omitted). -/
structure GameIdea where
  id : String
  creator_id : String
  title : String
  genre : String
  category : String
  summary : String
  tags : List String
  upvotes : Int
  view_count : Int
deriving DecidableEq, Repr

/-- Row of the projects table as read and written by CollaborationZone. -/
structure Project where
  id : String
  creator_id : String
  title : String
  description : String
  stage : String
  rating_sum : Int
  rating_count : Int
deriving DecidableEq, Repr

/-- Row of the project_feedback table. -/
structure Feedback where
  project_id : String
  user_id : String
  content : String
  rating : Int
deriving DecidableEq, Repr

/-- Row of the portfolio_items table as read and written by Profile.
Optional text columns are modelled as strings, the empty string standing
for an absent value, matching how the client form handles them. -/
structure PortfolioItem where
  id : String
  user_id : String
  title : String
  description : String
  image_url : String
  file_url : String
  file_type : String
  file_name : String
  tags : List String
deriving DecidableEq, Repr

/-- The portfolioFormData client draft in Profile.tsx. -/
structure PortfolioForm where
  title : String
  description : String
  image_url : String
  file_url : String
  file_type : String
  file_name : String
  tags : List String
deriving DecidableEq, Repr

/-- The formData draft of the IdeasHub share form. -/
structure IdeaForm where
  title : String
  genre : String
  category : String
  summary : String
  tags : List String
deriving DecidableEq, Repr

/-- The projectFormData draft of the CollaborationZone share form. -/
structure ProjectForm where
  title : String
  description : String
  stage : String
deriving DecidableEq, Repr

/-- Server-side state: the repository tables the embedded handlers touch
plus the set of keys present in the portfolio_uploads storage bucket. -/
structure St where
  gameIdeas : List GameIdea
  projects : List Project
  projectFeedback : List Feedback
  portfolioItems : List PortfolioItem
  storage : List String
deriving DecidableEq, Repr

/-- Repository or storage call issued by a handler, in issue order.  A
call is recorded when the client sends it, whether or not the backend
accepts it. -/
inductive Op where
  | insertIdea (row : GameIdea)
  | updateIdeaUpvotes (id : String) (newUpvotes : Int)
  | insertProject (row : Project)
  | insertFeedback (row : Feedback)
  | updateProjectRatings (id : String) (newSum newCount : Int)
  | insertPortfolioItem (row : PortfolioItem)
  | updatePortfolioItem (id : String) (form : PortfolioForm)
  | deletePortfolioItemRow (id : String)
  | storagePut (key : String)
  | storageDelete (key : String)
deriving DecidableEq, Repr

/-- Result of a handler that touches only server state: the state after
the call, the calls issued, and whether the handler finished without a
caught error. -/
structure HR where
  st : St
  ops : List Op
  ok : Bool
deriving DecidableEq, Repr

/-- Result of a Profile handler that also edits the client draft form. -/
structure FR where
  st : St
  ops : List Op
  form : PortfolioForm
  ok : Bool
deriving DecidableEq, Repr

/-- Result of uploadPortfolioFile: on success the public url and the
returned fileName (the original file name, per the source). -/
structure UpR where
  st : St
  ops : List Op
  res : Option (String × String)
deriving DecidableEq, Repr

/-- Repository insert into project_feedback.  The migration declares
rating integer CHECK (rating >= 1 AND rating <= 5), so the backend
rejects an out-of-range rating and the table is unchanged. -/
def dbInsertFeedback (row : Feedback) (st : St) : St × Bool :=
  if 1 ≤ row.rating ∧ row.rating ≤ 5 then
    ({ st with projectFeedback := st.projectFeedback ++ [row] }, true)
  else
    (st, false)

/-- Translation of handleUpvote from IdeasHub.tsx.  The source reads no
user: it unconditionally issues an update writing currentUpvotes + 1 for
the matching row; the user argument mirrors the value available from
useAuth and is not consulted. -/
def handleUpvote (_user : Option String) (ideaId : String) (currentUpvotes : Int) (st : St) : HR :=
  { st := { st with gameIdeas := st.gameIdeas.map (fun g =>
      if g.id == ideaId then { g with upvotes := currentUpvotes + 1 } else g) }
    ops := [.updateIdeaUpvotes ideaId (currentUpvotes + 1)]
    ok := true }

/-- Translation of handleSubmit from IdeasHub.tsx: returns at once when no
user is present, otherwise inserts a game_ideas row built from the form
with creator_id set to the user (upvotes and view_count take the column
defaults of 0); the fresh row id is supplied by the repository. -/
def handleSubmit (user : Option String) (form : IdeaForm) (newId : String) (st : St) : HR :=
  match user with
  | none => { st := st, ops := [], ok := true }
  | some uid =>
    let row : GameIdea :=
      { id := newId, creator_id := uid, title := form.title, genre := form.genre
        category := form.category, summary := form.summary, tags := form.tags
        upvotes := 0, view_count := 0 }
    { st := { st with gameIdeas := st.gameIdeas ++ [row] }
      ops := [.insertIdea row], ok := true }

/-- Translation of handleProjectSubmit from the CollaborationZone part of
IdeasHub.tsx: guarded on the user, inserts a projects row with the
rating aggregate at its column defaults of 0. -/
def handleProjectSubmit (user : Option String) (form : ProjectForm) (newId : String) (st : St) : HR :=
  match user with
  | none => { st := st, ops := [], ok := true }
  | some uid =>
    let row : Project :=
      { id := newId, creator_id := uid, title := form.title
        description := form.description, stage := form.stage
        rating_sum := 0, rating_count := 0 }
    { st := { st with projects := st.projects ++ [row] }
      ops := [.insertProject row], ok := true }

/-- Translation of handleFeedbackSubmit from the CollaborationZone part of
IdeasHub.tsx.  Guards on user and selectedProject; inserts the feedback
row (rejected by the repository CHECK when the rating is out of range, in
which case the thrown error is caught and nothing further happens); then
looks the project up in the PREVIOUSLY FETCHED client list, and only when
found issues an update writing the cached rating_sum plus the rating and
the cached rating_count plus one.  A project id absent from the client
list silently skips the aggregate update. -/
def handleFeedbackSubmit (user : Option String) (selectedProject : Option String)
    (clientProjects : List Project) (feedbackText : String) (rating : Int) (st : St) : HR :=
  match user, selectedProject with
  | some uid, some pid =>
    let row : Feedback := { project_id := pid, user_id := uid, content := feedbackText, rating := rating }
    let ins := dbInsertFeedback row st
    if ins.2 then
      match clientProjects.find? (fun p => p.id == pid) with
      | some p =>
        let newSum := p.rating_sum + rating
        let newCount := p.rating_count + 1
        { st := { ins.1 with projects := ins.1.projects.map (fun q =>
            if q.id == pid then { q with rating_sum := newSum, rating_count := newCount } else q) }
          ops := [.insertFeedback row, .updateProjectRatings pid newSum newCount]
          ok := true }
      | none =>
        { st := ins.1, ops := [.insertFeedback row], ok := true }
    else
      { st := ins.1, ops := [.insertFeedback row], ok := false }
  | _, _ => { st := st, ops := [], ok := true }

/-- Translation of getAverageRating from the CollaborationZone part of
IdeasHub.tsx, over exact rationals: 0 when rating_count is 0, otherwise
the quotient rendered by toFixed(1).  toFixed1 models the ECMAScript
rounding of toFixed with one fraction digit: the integer of tenths
closest to the value, the larger one on a tie. -/
def toFixed1 (q : ℚ) : ℚ :=
  (round (10 * q) : ℤ) / 10

/-- Translation of getAverageRating itself. -/
def getAverageRating (p : Project) : ℚ :=
  if p.rating_count = 0 then 0
  else toFixed1 ((p.rating_sum : ℚ) / (p.rating_count : ℚ))

/-- Translation of uploadPortfolioFile from src/lib/storage.ts: builds
the timestamped key, uploads with upsert false (so an existing key makes
the upload throw), and on success returns the public url together with
fileName set to file.name, the ORIGINAL file name. -/
def uploadPortfolioFile (origName : String) (userId : String) (now : Nat) (st : St) : UpR :=
  let filePath := uploadStoragePath userId now origName
  if filePath ∈ st.storage then
    { st := st, ops := [.storagePut filePath], res := none }
  else
    { st := { st with storage := st.storage ++ [filePath] }
      ops := [.storagePut filePath]
      res := some (publicUrl filePath, origName) }

/-- Translation of deletePortfolioFile from src/lib/storage.ts: issues a
remove of userId/fileName.  Removing an absent key is not an error. -/
def deletePortfolioFile (userId : String) (fileName : String) (st : St) : St × List Op :=
  let filePath := userId ++ "/" ++ fileName
  ({ st with storage := st.storage.filter (fun k => k != filePath) }, [.storageDelete filePath])

/-- Translation of handleFileUpload from Profile.tsx: returns at once
when no file or no user is present; otherwise uploads and, on success,
sets the draft fields file_url, file_type (the DECLARED kind of the
picker used, image or pdf) and file_name (the returned original name).
On an upload error the draft is left unchanged. -/
def handleFileUpload (user : Option String) (file : Option String) (declaredType : String)
    (form : PortfolioForm) (now : Nat) (st : St) : FR :=
  match file, user with
  | some f, some uid =>
    let u := uploadPortfolioFile f uid now st
    match u.res with
    | some (url, fileName) =>
      { st := u.st, ops := u.ops
        form := { form with file_url := url, file_type := declaredType, file_name := fileName }
        ok := true }
    | none =>
      { st := u.st, ops := u.ops, form := form, ok := false }
  | _, _ => { st := st, ops := [], form := form, ok := true }

/-- Translation of handleAddLink from Profile.tsx: no network call, the
draft takes kind link with the url as both url and display name. -/
def handleAddLink (url : String) (form : PortfolioForm) : PortfolioForm :=
  if url ≠ "" then { form with file_url := url, file_type := "link", file_name := url }
  else form

/-- Translation of handleClearFile from Profile.tsx: when the draft holds
a file name, its kind is not link, and a user is present, issues one
storage delete of userId/file_name (any failure is swallowed); the draft
attachment fields are cleared in every case. -/
def handleClearFile (user : Option String) (form : PortfolioForm) (st : St) : FR :=
  let cleared := { form with file_url := "", file_type := "", file_name := "" }
  match user with
  | some uid =>
    if form.file_name ≠ "" ∧ form.file_type ≠ "link" then
      let d := deletePortfolioFile uid form.file_name st
      { st := d.1, ops := d.2, form := cleared, ok := true }
    else
      { st := st, ops := [], form := cleared, ok := true }
  | none => { st := st, ops := [], form := cleared, ok := true }

/-- Translation of handlePortfolioSubmit from Profile.tsx: guarded on the
user; updates the edited row from the draft, or inserts a fresh row with
user_id set to the user. -/
def handlePortfolioSubmit (user : Option String) (editingItem : Option String)
    (form : PortfolioForm) (newId : String) (st : St) : HR :=
  match user with
  | none => { st := st, ops := [], ok := true }
  | some uid =>
    match editingItem with
    | some itemId =>
      { st := { st with portfolioItems := st.portfolioItems.map (fun it =>
          if it.id == itemId then
            { it with
              title := form.title
              description := form.description
              image_url := form.image_url
              file_url := form.file_url
              file_type := form.file_type
              file_name := form.file_name
              tags := form.tags }
          else it) }
        ops := [.updatePortfolioItem itemId form], ok := true }
    | none =>
      let row : PortfolioItem :=
        { id := newId, user_id := uid, title := form.title, description := form.description
          image_url := form.image_url, file_url := form.file_url, file_type := form.file_type
          file_name := form.file_name, tags := form.tags }
      { st := { st with portfolioItems := st.portfolioItems ++ [row] }
        ops := [.insertPortfolioItem row], ok := true }

/-- Translation of handleDeletePortfolioItem from Profile.tsx.  The
source reads no user and performs no storage call: it only issues the
repository delete of the row; the user argument mirrors the value
available from useAuth and is not consulted. -/
def handleDeletePortfolioItem (_user : Option String) (id : String) (st : St) : HR :=
  { st := { st with portfolioItems := st.portfolioItems.filter (fun it => it.id != id) }
    ops := [.deletePortfolioItemRow id]
    ok := true }

/-- The empty portfolio draft. -/
def emptyForm : PortfolioForm :=
  { title := "", description := "", image_url := "", file_url := "", file_type := "", file_name := "", tags := [] }

/-- C10 counterexample: the file name jpg contains no dot, so its
extension is absent in the ordinary sense, yet getFileType classifies it
as image, not link, because the source treats the whole dotless name as
the extension. -/
theorem classify_dotless_name_counterexample :
    ¬ '.' ∈ "jpg".data ∧ getFileType "jpg" = "image" ∧ ("image" : String) ≠ "link" := by
  decide

/-- C10 (amended): getFileType is total with range image, pdf or link; it
lowercases the last dot-segment of the name case-insensitively and maps
the image extensions to image, pdf to pdf and everything else to link;
the four quoted examples hold and an empty extension yields link; but a
dotless name is treated as its own extension, so a bare image or pdf
extension name such as jpg yields image rather than link. -/
theorem classify_extension_mapping :
    getFileType "photo.PNG" = "image" ∧
    getFileType "doc.pdf" = "pdf" ∧
    getFileType "notes" = "link" ∧
    getFileType "readme.TXT" = "link" ∧
    getFileType "photo." = "link" ∧
    getFileType "" = "link" ∧
    getFileType "Art.WebP" = "image" ∧
    getFileType "jpg" = "image" ∧
    (∀ name : String,
      getFileType name = "image" ∨ getFileType name = "pdf" ∨ getFileType name = "link") := by
  refine ⟨by decide, by decide, by decide, by decide, by decide, by decide, by decide, by decide, ?_⟩
  intro name
  simp only [getFileType]
  split
  · exact Or.inl rfl
  · split
    · exact Or.inr (Or.inl rfl)
    · exact Or.inr (Or.inr rfl)

/-- C7 counterexample: uploading a file named notes.txt through the image
picker stores kind image on the draft, while the extension-derived kind
of notes.txt is link, so the stored kind is not derived from the
extension. -/
theorem upload_kind_ignores_extension :
    (handleFileUpload (some "u1") (some "notes.txt") "image" emptyForm 5
        ⟨[], [], [], [], []⟩).form.file_type = "image" ∧
    getFileType "notes.txt" = "link" ∧
    ("image" : String) ≠ "link" := by
  decide

/-- C7 (amended): the kind handleFileUpload stores on the draft is the
DECLARED kind of the upload control that was used (the fileType argument,
image or pdf), independent of the uploaded file name; on an upload
failure the draft is unchanged.  getFileType is not consulted on this
path. -/
theorem upload_kind_is_declared_kind :
    ∀ (uid f declaredType : String) (form : PortfolioForm) (now : Nat) (st : St),
      (handleFileUpload (some uid) (some f) declaredType form now st).form.file_type = declaredType ∨
      (handleFileUpload (some uid) (some f) declaredType form now st).form = form := by
  intro uid f d form now st
  by_cases h : uploadStoragePath uid now f ∈ st.storage
  · right
    simp [handleFileUpload, uploadPortfolioFile, h]
  · left
    simp [handleFileUpload, uploadPortfolioFile, h]

/-- C4 counterexample: a portfolio item holding an image attachment whose
object is stored under key u1/u1-1000.png is deleted; the row is gone but
the stored object is still present and the only call issued is the row
delete, so the attachment object is not deleted from the object store. -/
theorem delete_item_leaves_stored_object :
    (handleDeletePortfolioItem (some "u1") "it1"
        ⟨[], [], [],
         [⟨"it1", "u1", "T", "D", "", "portfolio_uploads/u1/u1-1000.png", "image", "art.png", []⟩],
         ["u1/u1-1000.png"]⟩).st
      = ⟨[], [], [], [], ["u1/u1-1000.png"]⟩ ∧
    (handleDeletePortfolioItem (some "u1") "it1"
        ⟨[], [], [],
         [⟨"it1", "u1", "T", "D", "", "portfolio_uploads/u1/u1-1000.png", "image", "art.png", []⟩],
         ["u1/u1-1000.png"]⟩).ops
      = [Op.deletePortfolioItemRow "it1"] := by
  decide

/-- C4 (amended): handleDeletePortfolioItem issues exactly the repository
delete of the row and nothing else: the object store is untouched for
every state, including one whose deleted item holds an image or pdf
attachment, so the stored object is orphaned rather than deleted. -/
theorem deletePortfolioItem_issues_no_storage_delete :
    ∀ (user : Option String) (id : String) (st : St),
      (handleDeletePortfolioItem user id st).st.storage = st.storage ∧
      (handleDeletePortfolioItem user id st).ops = [Op.deletePortfolioItemRow id] ∧
      (handleDeletePortfolioItem user id st).st.portfolioItems
        = st.portfolioItems.filter (fun it => it.id != id) :=
  fun _ _ _ => ⟨rfl, rfl, rfl⟩

/-- C5 counterexample: with no user present, handleUpvote still issues
its repository update (the source never consults the user), and
handleDeletePortfolioItem still issues its repository delete, so not
every write path is free of issued writes when no user is present. -/
theorem upvote_issues_write_without_user :
    (handleUpvote none "i1" 3
        ⟨[⟨"i1", "u0", "T", "Action", "Story", "S", [], 3, 0⟩], [], [], [], []⟩).ops
      = [Op.updateIdeaUpvotes "i1" 4] ∧
    (handleUpvote none "i1" 3
        ⟨[⟨"i1", "u0", "T", "Action", "Story", "S", [], 3, 0⟩], [], [], [], []⟩).st.gameIdeas
      = [⟨"i1", "u0", "T", "Action", "Story", "S", [], 4, 0⟩] ∧
    (handleDeletePortfolioItem none "it1" ⟨[], [], [], [], []⟩).ops
      = [Op.deletePortfolioItemRow "it1"] := by
  decide

/-- C5 (amended): the form-submitting write handlers (idea creation,
project creation, feedback submission, portfolio save, file upload,
attachment clear) are no-ops that issue no repository or storage call
when no user is present; handleUpvote and handleDeletePortfolioItem,
however, do not consult the user and issue their repository write
unconditionally, relying only on the external row-level policies. -/
theorem write_handlers_guard_on_user :
    (∀ (form : IdeaForm) (newId : String) (st : St),
        handleSubmit none form newId st = ⟨st, [], true⟩) ∧
    (∀ (form : ProjectForm) (newId : String) (st : St),
        handleProjectSubmit none form newId st = ⟨st, [], true⟩) ∧
    (∀ (sel : Option String) (cps : List Project) (txt : String) (r : Int) (st : St),
        handleFeedbackSubmit none sel cps txt r st = ⟨st, [], true⟩) ∧
    (∀ (editing : Option String) (form : PortfolioForm) (newId : String) (st : St),
        handlePortfolioSubmit none editing form newId st = ⟨st, [], true⟩) ∧
    (∀ (file : Option String) (d : String) (form : PortfolioForm) (now : Nat) (st : St),
        handleFileUpload none file d form now st = ⟨st, [], form, true⟩) ∧
    (∀ (form : PortfolioForm) (st : St),
        (handleClearFile none form st).st = st ∧ (handleClearFile none form st).ops = []) ∧
    (∀ (ideaId : String) (c : Int) (st : St),
        (handleUpvote none ideaId c st).ops = [Op.updateIdeaUpvotes ideaId (c + 1)]) ∧
    (∀ (id : String) (st : St),
        (handleDeletePortfolioItem none id st).ops = [Op.deletePortfolioItemRow id]) := by
  refine ⟨fun _ _ _ => rfl, fun _ _ _ => rfl, fun sel _ _ _ _ => ?_, fun _ _ _ _ => rfl,
    fun file _ _ _ _ => ?_, fun _ _ => ⟨rfl, rfl⟩, fun _ _ _ => rfl, fun _ _ => rfl⟩
  · cases sel <;> rfl
  · cases file <;> rfl

/-- C6: handleUpvote always issues an update writing the supplied
last-known count plus one, regardless of the value currently stored; two
increments issued from the same base b therefore both write b + 1, and
the state after the second is exactly the state reached by a single
increment, with the final value b + 1 strictly below b + 2. -/
theorem incrementUpvote_writes_base_plus_one :
    ∀ (user : Option String) (ideaId : String) (b : Int) (st : St),
      (handleUpvote user ideaId b st).ops = [Op.updateIdeaUpvotes ideaId (b + 1)] ∧
      (handleUpvote user ideaId b (handleUpvote user ideaId b st).st).st.gameIdeas
        = st.gameIdeas.map (fun g => if g.id == ideaId then { g with upvotes := b + 1 } else g) ∧
      b + 1 < b + 2 := by
  intro u i b st
  refine ⟨rfl, ?_, by omega⟩
  have hcomp : ((fun g : GameIdea => if g.id == i then { g with upvotes := b + 1 } else g) ∘
      (fun g : GameIdea => if g.id == i then { g with upvotes := b + 1 } else g))
      = (fun g : GameIdea => if g.id == i then { g with upvotes := b + 1 } else g) := by
    funext g
    by_cases h : (g.id == i) = true
    · simp [Function.comp, h]
    · simp [Function.comp, h]
  show List.map _ (List.map _ st.gameIdeas) = _
  rw [List.map_map, hcomp]

/-- C2: at the failing input (user u1, file art.png, upload at epoch
milliseconds 1000) the attach stores the object under the timestamped key
u1/u1-1000.png and records the draft kind image with display name
art.png; the subsequent detach issues exactly one storage delete, but its
key is u1/art.png, built from the ORIGINAL file name, which differs from
the stored key, and the stored object survives the detach. -/
theorem detach_deletes_wrong_key :
    (handleFileUpload (some "u1") (some "art.png") "image" emptyForm 1000
        ⟨[], [], [], [], []⟩).st.storage = ["u1/u1-1000.png"] ∧
    (handleFileUpload (some "u1") (some "art.png") "image" emptyForm 1000
        ⟨[], [], [], [], []⟩).form.file_type = "image" ∧
    (handleFileUpload (some "u1") (some "art.png") "image" emptyForm 1000
        ⟨[], [], [], [], []⟩).form.file_name = "art.png" ∧
    (handleClearFile (some "u1")
        (handleFileUpload (some "u1") (some "art.png") "image" emptyForm 1000
          ⟨[], [], [], [], []⟩).form
        (handleFileUpload (some "u1") (some "art.png") "image" emptyForm 1000
          ⟨[], [], [], [], []⟩).st).ops = [Op.storageDelete "u1/art.png"] ∧
    (handleClearFile (some "u1")
        (handleFileUpload (some "u1") (some "art.png") "image" emptyForm 1000
          ⟨[], [], [], [], []⟩).form
        (handleFileUpload (some "u1") (some "art.png") "image" emptyForm 1000
          ⟨[], [], [], [], []⟩).st).st.storage = ["u1/u1-1000.png"] ∧
    ("u1/art.png" : String) ≠ "u1/u1-1000.png" := by
  decide

/-- C1: with a user and a selected project, a rating r in the range one
to five, and a client project list whose entry for the selected id
carries rating_sum s and rating_count c (the freshly loaded repository
values), handleFeedbackSubmit finishes without error, appends exactly one
feedback row, issues the insert followed by an update writing s + r and
c + 1, leaves every project row with that id holding s + r and c + 1, and
getAverageRating on the updated row equals (s + r) / (c + 1) rounded to
one decimal. -/
theorem submitRating_updates_aggregate
    (uid pid txt : String) (r s c : Int) (st : St) (p : Project) (rr : HR)
    (hrr : rr = handleFeedbackSubmit (some uid) (some pid) st.projects txt r st)
    (hfind : st.projects.find? (fun q => q.id == pid) = some p)
    (hs : p.rating_sum = s) (hc : p.rating_count = c)
    (hr1 : 1 ≤ r) (hr5 : r ≤ 5) (hc0 : 0 ≤ c) :
    rr.ok = true ∧
    rr.st.projectFeedback = st.projectFeedback ++ [⟨pid, uid, txt, r⟩] ∧
    rr.ops = [Op.insertFeedback ⟨pid, uid, txt, r⟩, Op.updateProjectRatings pid (s + r) (c + 1)] ∧
    rr.st.projects = st.projects.map (fun q =>
      if q.id == pid then { q with rating_sum := s + r, rating_count := c + 1 } else q) ∧
    ∀ q ∈ rr.st.projects, q.id = pid →
      getAverageRating q = toFixed1 (((s : ℚ) + (r : ℚ)) / ((c : ℚ) + 1)) := by
  subst hrr hs hc
  have hmain : handleFeedbackSubmit (some uid) (some pid) st.projects txt r st
      = ⟨{ st with
            projectFeedback := st.projectFeedback ++ [⟨pid, uid, txt, r⟩]
            projects := st.projects.map (fun q =>
              if q.id == pid then
                { q with rating_sum := p.rating_sum + r, rating_count := p.rating_count + 1 }
              else q) },
          [Op.insertFeedback ⟨pid, uid, txt, r⟩,
           Op.updateProjectRatings pid (p.rating_sum + r) (p.rating_count + 1)], true⟩ := by
    simp [handleFeedbackSubmit, dbInsertFeedback, hr1, hr5, hfind]
  rw [hmain]
  refine ⟨rfl, rfl, rfl, rfl, ?_⟩
  intro q hq hqid
  rcases List.mem_map.1 hq with ⟨a, _, rfl⟩
  by_cases h : (a.id == pid) = true
  · have hcount : (0 : Int) < p.rating_count + 1 := by omega
    simp only [h, if_true, getAverageRating]
    rw [if_neg (by omega)]
    congr 1
    push_cast
    ring_nf
  · exfalso
    simp only [h, if_false] at hqid
    exact h (beq_iff_eq.2 hqid)

/-- C1 witness: a concrete project with rating_sum 7 and rating_count 2
receives rating 4 from user u1; the repository afterwards holds rating
sum 11 and count 3, and the average evaluates to the rounded value of
(7 + 4) / (2 + 1). -/
theorem submitRating_updates_aggregate_witness :
    (handleFeedbackSubmit (some "u1") (some "p1")
        [⟨"p1", "u0", "T", "D", "Idea", 7, 2⟩] "nice" 4
        ⟨[], [⟨"p1", "u0", "T", "D", "Idea", 7, 2⟩], [], [], []⟩).st.projects
      = [⟨"p1", "u0", "T", "D", "Idea", 11, 3⟩] ∧
    getAverageRating ⟨"p1", "u0", "T", "D", "Idea", 11, 3⟩
      = toFixed1 (((7 : ℚ) + (4 : ℚ)) / ((2 : ℚ) + 1)) := by
  have h := submitRating_updates_aggregate "u1" "p1" "nice" 4 7 2
      ⟨[], [⟨"p1", "u0", "T", "D", "Idea", 7, 2⟩], [], [], []⟩
      ⟨"p1", "u0", "T", "D", "Idea", 7, 2⟩
      (handleFeedbackSubmit (some "u1") (some "p1")
        [⟨"p1", "u0", "T", "D", "Idea", 7, 2⟩] "nice" 4
        ⟨[], [⟨"p1", "u0", "T", "D", "Idea", 7, 2⟩], [], [], []⟩)
      rfl (by decide) rfl rfl (by decide) (by decide) (by decide)
  refine ⟨h.2.2.2.1.trans (by decide), ?_⟩
  exact h.2.2.2.2 ⟨"p1", "u0", "T", "D", "Idea", 11, 3⟩
    (by rw [h.2.2.2.1]; decide) rfl

/-- C3 counterexample: with rating 6, outside the valid range,
handleFeedbackSubmit DOES issue the feedback insert call (the client
performs no validation before writing); the repository rejects it, so the
issued-call list is the nonempty singleton insert. -/
theorem outOfRange_rating_insert_issued :
    (handleFeedbackSubmit (some "u1") (some "p1") [⟨"p1", "u0", "T", "D", "Idea", 0, 0⟩]
        "bad" 6 ⟨[], [⟨"p1", "u0", "T", "D", "Idea", 0, 0⟩], [], [], []⟩).ops
      = [Op.insertFeedback ⟨"p1", "u1", "bad", 6⟩] ∧
    (handleFeedbackSubmit (some "u1") (some "p1") [⟨"p1", "u0", "T", "D", "Idea", 0, 0⟩]
        "bad" 6 ⟨[], [⟨"p1", "u0", "T", "D", "Idea", 0, 0⟩], [], [], []⟩).ops ≠ [] := by
  decide

/-- C3 (amended): for a rating outside the range one to five,
handleFeedbackSubmit performs no client-side validation: it issues the
feedback insert, which the repository rejects through the CHECK
constraint on the rating column; the thrown error is caught, no aggregate
update is issued, the handler reports the caught error, and all stored
state is unchanged. -/
theorem outOfRange_rating_rejected
    (uid pid txt : String) (r : Int) (cps : List Project) (st : St)
    (hr : r < 1 ∨ 5 < r) :
    handleFeedbackSubmit (some uid) (some pid) cps txt r st
      = ⟨st, [Op.insertFeedback ⟨pid, uid, txt, r⟩], false⟩ := by
  have hnot : ¬(1 ≤ r ∧ r ≤ 5) := by omega
  simp [handleFeedbackSubmit, dbInsertFeedback, hnot]

/-- C3 witness: rating zero on an arbitrary concrete state is rejected by
the repository with the single issued insert and unchanged state. -/
theorem outOfRange_rating_rejected_witness :
    handleFeedbackSubmit (some "u1") (some "p1") [] "t" 0 ⟨[], [], [], [], []⟩
      = ⟨⟨[], [], [], [], []⟩, [Op.insertFeedback ⟨"p1", "u1", "t", 0⟩], false⟩ :=
  outOfRange_rating_rejected "u1" "p1" "t" 0 [] ⟨[], [], [], [], []⟩ (by decide)

/-- C8: when the selected project id is absent from the client list that
was fetched earlier, handleFeedbackSubmit inserts the feedback row and
stops: the projects table is untouched for EVERY repository state,
including one that does contain the project, because the read at step (b)
consults only the client list; the handler reports success. -/
theorem feedback_missing_cached_project_skips_update
    (uid pid txt : String) (r : Int) (cps : List Project) (st : St)
    (hfind : cps.find? (fun p => p.id == pid) = none)
    (hr1 : 1 ≤ r) (hr5 : r ≤ 5) :
    handleFeedbackSubmit (some uid) (some pid) cps txt r st
      = ⟨{ st with projectFeedback := st.projectFeedback ++ [⟨pid, uid, txt, r⟩] },
         [Op.insertFeedback ⟨pid, uid, txt, r⟩], true⟩ := by
  simp [handleFeedbackSubmit, dbInsertFeedback, hr1, hr5, hfind]

/-- C8 witness: the repository holds project p1 with sum 7 and count 2,
but the client list is empty; rating 5 inserts the feedback row, leaves
the project aggregate at 7 and 2, and reports no error. -/
theorem feedback_missing_cached_project_skips_update_witness :
    handleFeedbackSubmit (some "u1") (some "p1") [] "t" 5
        ⟨[], [⟨"p1", "u0", "T", "D", "Idea", 7, 2⟩], [], [], []⟩
      = ⟨⟨[], [⟨"p1", "u0", "T", "D", "Idea", 7, 2⟩], [⟨"p1", "u1", "t", 5⟩], [], []⟩,
         [Op.insertFeedback ⟨"p1", "u1", "t", 5⟩], true⟩ := by
  have h := feedback_missing_cached_project_skips_update "u1" "p1" "t" 5 []
      ⟨[], [⟨"p1", "u0", "T", "D", "Idea", 7, 2⟩], [], [], []⟩ rfl (by decide) (by decide)
  exact h.trans (by decide)

/-- C9: getAverageRating is a pure function of the project record: it
returns 0 whenever rating_count is 0, whatever rating_sum holds, and
otherwise returns rating_sum divided by rating_count rounded to one
decimal in the toFixed sense. -/
theorem averageRating_cases (p : Project) :
    (p.rating_count = 0 → getAverageRating p = 0) ∧
    (p.rating_count ≠ 0 →
      getAverageRating p = toFixed1 ((p.rating_sum : ℚ) / (p.rating_count : ℚ))) := by
  constructor
  · intro h
    simp [getAverageRating, h]
  · intro h
    simp [getAverageRating, h]

/-- C9 witness: a project with rating_sum 37 and rating_count 0 averages
to 0, and one with rating_sum 14 and rating_count 4 averages to the
rounded value of 14 / 4. -/
theorem averageRating_cases_witness :
    getAverageRating ⟨"p1", "u0", "T", "D", "Idea", 37, 0⟩ = 0 ∧
    getAverageRating ⟨"p1", "u0", "T", "D", "Idea", 14, 4⟩
      = toFixed1 ((14 : ℚ) / (4 : ℚ)) := by
  refine ⟨(averageRating_cases ⟨"p1", "u0", "T", "D", "Idea", 37, 0⟩).1 rfl, ?_⟩
  have h := (averageRating_cases ⟨"p1", "u0", "T", "D", "Idea", 14, 4⟩).2 (by decide)
  simpa using h

end GameSocio
